import Mathlib

/-!
# Verification of the `typed_query` module of `todo-rust`

Shallow embedding of `src/lib.rs` (module `typed_query`): a typed SQL
query-construction layer.  Rust generics become Lean type parameters, the
`Box<dyn SomeField>` trait object becomes the closed union of its three
implementers (`Field<T>`, `&Field<T>`, `Constant<T>`), type-erased SQL
values become the sum type `SqlValue`, and the postgres `Client` becomes a
record of effectful operations modelled as functions into `Except`.
A Rust `panic!` / `.unwrap()` abort is modelled as `Option.none` (for the
`WithDefault` encoding panic) respectively as propagation of the
underlying connection error (for `.unwrap()` on a connection result).
-/

namespace TypedQuery

/-- Type-erased SQL value: the payload carried by a bound parameter once it
reaches the connection boundary (`dyn postgres::types::ToSql`). -/
inductive SqlValue where
  | int (i : Int)
  | str (s : String)
  | bool (b : Bool)
  | null
deriving DecidableEq, Repr

/-- `enum WithDefault<T> { Value(T), Default }` from the source. -/
inductive WithDefault (α : Type) where
  | Value (v : α)
  | Default
deriving DecidableEq, Repr

/-- `impl IsDefault for WithDefault<T>`: `Value _ => false, Default => true`. -/
def WithDefault.isDefault : WithDefault α → Bool
  | .Value _ => false
  | .Default => true

/-- `struct Param(pub Box<dyn IsParam + Sync>)`: the boxed value is either a
`WithDefault<T>` (the only `IsDefault` implementation that can say `true`)
or a plain encodable value (`String`, `Option<T>`, ... whose `is_default`
is the default `false`). -/
inductive Param where
  | withDefault (w : WithDefault SqlValue)
  | plain (v : SqlValue)
deriving DecidableEq, Repr

/-- `is_default()` on the boxed value inside a `Param`. -/
def Param.isDefault : Param → Bool
  | .withDefault w => w.isDefault
  | .plain _ => false

/-- The postgres `ToSql` encoding of a `Param`'s boxed value.
`WithDefault::Default` hits
`panic!("should never write a default value to sql")` in the source;
the panic is modelled as `none`. -/
def Param.encode : Param → Option SqlValue
  | .withDefault (.Value v) => some v
  | .withDefault .Default => none
  | .plain v => some v

/-- `struct Field<T> { name, phantom }`. The phantom type parameter `α`
fixes the column's value type at compile time. -/
structure Field (α : Type) where
  name : String

/-- `impl Clone for Field<T>`: copies the name. -/
def Field.clone (f : Field α) : Field α := ⟨f.name⟩

/-- `struct Constant<T> { value }`. -/
structure Constant (α : Type) where
  value : α

/-- The closed set of `Box<dyn SomeField>` trait objects: `Field<T>` /
`&Field<T>` (a named column) and `Constant<T>` (a literal, stored via its
`to_string()` rendering, which is all the trait object can ever expose). -/
inductive SomeFieldE where
  | field (name : String)
  | constant (text : String)
deriving DecidableEq, Repr

/-- The `SomeField` capability: boxing a value as a `dyn SomeField`. -/
class SomeField (β : Type) where
  erase : β → SomeFieldE

instance instSomeFieldField : SomeField (Field α) := ⟨fun f => .field f.name⟩

instance instSomeFieldConstant [ToString α] : SomeField (Constant α) :=
  ⟨fun c => .constant (toString c.value)⟩

/-- `enum Predicate { Eq { field1, field2 } }`. -/
inductive Predicate where
  | eq (field1 : SomeFieldE) (field2 : SomeFieldE)

/-- `Field::eq`: box both operands into `Predicate::Eq`. -/
def Field.eq [SomeField β] (f : Field α) (other : β) : Predicate :=
  .eq (SomeField.erase f) (SomeField.erase other)

/-- `enum Direction { Ascending, Descending }`. -/
inductive Direction where
  | ascending
  | descending

/-- `struct Order { by, direction }` (`by` is a Lean keyword, renamed `by_`). -/
structure Order where
  by_ : SomeFieldE
  direction : Direction

/-- `asc(field)`: clones the operand and boxes it with `Ascending`. -/
def asc (f : Field α) : Order :=
  { by_ := SomeField.erase (Field.clone f), direction := .ascending }

/-- `desc(field)`: clones the operand and boxes it with `Descending`. -/
def desc (f : Field α) : Order :=
  { by_ := SomeField.erase (Field.clone f), direction := .descending }

/-- `struct Table<C, R> { name, columns, phantom }` (the `R` parameter is
phantom and does not influence any rendered SQL, so it is dropped here;
where the source uses it — row decoding — the decoder is passed explicitly). -/
structure Table (C : Type) where
  name : String
  columns : C

/-- `enum Query<C, R> { Table, Where, Order }`. -/
inductive Query (C : Type) where
  | table (table : Table C)
  | whereQ (query : Query C) (predicate : Predicate)
  | order (query : Query C) (order : Order)

/-- `fn from(table)` (Lean keyword `from`, renamed). -/
def fromTable (t : Table C) : Query C := .table t

/-- `Query::columns`: recurse to the innermost `Table` node. -/
def Query.columns : Query C → C
  | .table t => t.columns
  | .whereQ q _ => q.columns
  | .order q _ => q.columns

/-- `Query::where_`: evaluate the condition on `self.columns()` and wrap. -/
def Query.where_ (q : Query C) (condition : C → Predicate) : Query C :=
  .whereQ q (condition q.columns)

/-- `Query::order_by`: evaluate the order maker on `self.columns()` and wrap. -/
def Query.order_by (q : Query C) (make_order : C → Order) : Query C :=
  .order q (make_order q.columns)

/-- `InsertParams(Vec<Vec<Param>>)`: rows of parameter values. -/
abbrev InsertParams := List (List Param)

/-- `struct Insert<C, R> { table, values }`. -/
structure Insert (C : Type) where
  table : Table C
  values : InsertParams

/-- `fn insert_into(table)`: an `Insert` with zero rows. -/
def insert_into (t : Table C) : Insert C :=
  { table := t, values := [] }

/-- `Insert::values`: convert the row via its `ToSqlParams` capability
(passed explicitly) and push it onto the row list. -/
def Insert.values_ (i : Insert C) (to_sql_params : V → List Param) (v : V) : Insert C :=
  { table := i.table, values := i.values ++ [to_sql_params v] }

/-- The flattening loop in `Insert::execute`: for each row in order, push
every `Param` whose `is_default()` is false, in column order. -/
def executeParams : InsertParams → List Param
  | [] => []
  | vs :: vss => vs.filter (fun p => !p.isDefault) ++ executeParams vss

/-! ## SQL rendering (`trait ToSql`) -/

/-- `impl ToSql for Table`: just the name. -/
def Table.toSql (t : Table C) : String := t.name

/-- `impl ToSql for Constant<T: ToString>`: `value.to_string()`. -/
def Constant.toSql [ToString α] (c : Constant α) : String := toString c.value

/-- `to_sql` on a boxed `dyn SomeField` (`Field`/`&Field` render the name,
`Constant` renders its value text). -/
def SomeFieldE.toSql : SomeFieldE → String
  | .field n => n
  | .constant t => t

/-- `impl ToSql for Predicate`: `field1 = field2`. -/
def Predicate.toSql : Predicate → String
  | .eq f1 f2 => f1.toSql ++ " = " ++ f2.toSql

/-- `impl ToSql for Direction`. -/
def Direction.toSql : Direction → String
  | .ascending => "asc"
  | .descending => "desc"

/-- `impl ToSql for Order`: `<by> <direction>`. -/
def Order.toSql (o : Order) : String :=
  o.by_.toSql ++ " " ++ o.direction.toSql

/-- `impl ToSql for Query`: recursive rendering, nesting the inner query as
a derived table aliased `t`. -/
def Query.toSql : Query C → String
  | .table t => "select * from " ++ t.toSql
  | .whereQ q p => "select * from (" ++ q.toSql ++ ") t where " ++ p.toSql
  | .order q o => "select * from (" ++ q.toSql ++ ") t order by " ++ o.toSql

/-- Inner loop of `impl ToSql for InsertParams`: renders the slots of one
row. `j` is the slot index within the row (separator before every slot but
the first), `ix` the placeholder counter, incremented only on non-default
slots. Returns the rendered text and the final counter. -/
def insertParamsToSqlRow : List Param → Nat → Nat → String × Nat
  | [], _, ix => ("", ix)
  | p :: ps, j, ix =>
    let sep := if j > 0 then ", " else ""
    if p.isDefault then
      let r := insertParamsToSqlRow ps (j + 1) ix
      (sep ++ "default" ++ r.1, r.2)
    else
      let r := insertParamsToSqlRow ps (j + 1) (ix + 1)
      (sep ++ "$" ++ toString ix ++ r.1, r.2)

/-- Outer loop of `impl ToSql for InsertParams`: renders the rows.  `i` is
the row index (separator before every row but the first), `ix` the running
placeholder counter threaded across rows. -/
def insertParamsToSqlRows : InsertParams → Nat → Nat → String × Nat
  | [], _, ix => ("", ix)
  | vs :: vss, i, ix =>
    let sep := if i > 0 then ", " else ""
    let r := insertParamsToSqlRow vs 0 ix
    let rest := insertParamsToSqlRows vss (i + 1) r.2
    (sep ++ "(" ++ r.1 ++ ")" ++ rest.1, rest.2)

/-- `impl ToSql for InsertParams`: counter starts at 1, row index at 0. -/
def InsertParams.toSql (vss : InsertParams) : String :=
  (insertParamsToSqlRows vss 0 1).1

/-- `impl ToSql for Insert`: `insert into <table> values <params>`. -/
def Insert.toSql (i : Insert C) : String :=
  "insert into " ++ i.table.toSql ++ " values " ++ InsertParams.toSql i.values

/-! ## Execution boundary -/

/-- A backend execution error, carrying an implementation-defined message. -/
structure DbError where
  msg : String
deriving DecidableEq, Repr

/-- Model of `postgres::Client`: `query` returns physical rows, `execute`
returns an affected-row count; both may fail with a backend error. -/
structure Client (Row : Type) where
  queryFn : String → List SqlValue → Except DbError (List Row)
  executeFn : String → List SqlValue → Except DbError Nat

/-- `Query::query`: render, send with no bound parameters, decode each row
via the `FromRow` capability (`from_row`, passed explicitly).  The source's
`.unwrap()` aborts on a connection error carrying that error unmodified;
this is modelled as propagating the error. -/
def Query.query (q : Query C) (from_row : Row → R) (client : Client Row) :
    Except DbError (List R) :=
  match client.queryFn q.toSql [] with
  | .error e => .error e
  | .ok rows => .ok (rows.map from_row)

/-- Encoding of a bound-parameter list at the connection boundary: every
param goes through its postgres `ToSql` (`Param.encode`); a panic in any of
them (`none`) aborts the whole call. -/
def encodeAll : List Param → Option (List SqlValue)
  | [] => some []
  | p :: ps =>
    match p.encode, encodeAll ps with
    | some v, some vs => some (v :: vs)
    | _, _ => none

/-- `Insert::execute`: render, flatten the non-default params, send.  The
connection encodes every bound param via its postgres `ToSql`
(`Param.encode`); a `Default` reaching that encoding would panic, modelled
as `none`.  The source discards the affected-row count and its `.unwrap()`
aborts on a connection error carrying that error unmodified, modelled as
propagating the error. -/
def Insert.execute (i : Insert C) (client : Client Row) :
    Option (Except DbError Unit) :=
  match encodeAll (executeParams i.values) with
  | none => none
  | some vals => some ((client.executeFn i.toSql vals).map fun _ => ())

/-! ## Query-building chains (for quantifying over arbitrary `where_` /
`order_by` call sequences) -/

/-- One builder call atop a query: a `where_` with its condition callback
or an `order_by` with its order-maker callback. -/
inductive QueryStep (C : Type) where
  | whereStep (condition : C → Predicate)
  | orderStep (make_order : C → Order)

/-- Apply a finite chain of builder calls, left to right. -/
def applySteps (q : Query C) : List (QueryStep C) → Query C
  | [] => q
  | .whereStep f :: rest => applySteps (q.where_ f) rest
  | .orderStep f :: rest => applySteps (q.order_by f) rest

/-! ## Specification-side description of insert rendering

The spec describes the placeholder numbering declaratively: markers `$k`
are assigned by a single counter scanned row-major, column-minor,
incrementing only on non-default slots.  The following definitions follow
that wording; the refinement theorems relate them to the translated
renderer above. -/

/-- Concatenation of a list of strings. -/
def concatAll : List String → String
  | [] => ""
  | x :: xs => x ++ concatAll xs

/-- `sepConcat sep xs`: the strings joined with `sep` between neighbours. -/
def sepConcat (sep : String) : List String → String
  | [] => ""
  | x :: xs => x ++ concatAll (xs.map (fun y => sep ++ y))

/-- Spec-side marking of one row's slots: `none` for a default slot,
`some k` for the slot assigned marker `$k`; the counter increments only on
non-default slots.  Returns the marks and the final counter. -/
def markRow : Nat → List Param → List (Option Nat) × Nat
  | ix, [] => ([], ix)
  | ix, p :: ps =>
    if p.isDefault then
      let r := markRow ix ps
      (none :: r.1, r.2)
    else
      let r := markRow (ix + 1) ps
      (some ix :: r.1, r.2)

/-- Spec-side marking of all rows, threading the counter across rows. -/
def markRows : Nat → InsertParams → List (List (Option Nat)) × Nat
  | ix, [] => ([], ix)
  | ix, vs :: vss =>
    let r := markRow ix vs
    let rest := markRows r.2 vss
    (r.1 :: rest.1, rest.2)

/-- Spec-side slot text: a default slot renders the keyword `default`, a
marked slot renders the positional marker `$k`. -/
def slotText : Option Nat → String
  | none => "default"
  | some k => "$" ++ toString k

/-- Spec-side rendering of the insert rows: comma-separated parenthesized
lists of slot texts, markers assigned by `markRows` starting at 1. -/
def specInsertParamsSql (vss : InsertParams) : String :=
  sepConcat ", "
    ((markRows 1 vss).1.map (fun ms => "(" ++ sepConcat ", " (ms.map slotText) ++ ")"))

/-! ## Concrete fixtures -/

/-- The spec's two-row example over a 3-column table:
`[Value(1), Default, Value(3)]` and `[Default, Value(5), Value(6)]`. -/
def exampleRows : InsertParams :=
  [[.withDefault (.Value (.int 1)), .withDefault .Default, .withDefault (.Value (.int 3))],
   [.withDefault .Default, .withDefault (.Value (.int 5)), .withDefault (.Value (.int 6))]]

/-- The example rows as a pending insert into a table named `todo`. -/
def exampleInsert : Insert Unit :=
  { table := { name := "todo", columns := () }, values := exampleRows }

/-- A connection that fails every call with the same backend error. -/
def failingClient (e : DbError) : Client Unit :=
  { queryFn := fun _ _ => .error e, executeFn := fun _ _ => .error e }

/-- `struct TodoColumns` from `main.rs` (the phantom column types: the
`SystemTime` columns are represented with `Nat` timestamps; the phantom
parameter never reaches any rendered SQL). -/
structure TodoColumns where
  id : Field Int
  name : Field String
  created_time : Field Nat
  completed : Field Bool
  completed_time : Field Nat

/-- `const TODO_TABLE` from `main.rs`. -/
def TODO_TABLE : Table TodoColumns :=
  { name := "todo",
    columns :=
      { id := ⟨"id"⟩, name := ⟨"name"⟩, created_time := ⟨"created_time"⟩,
        completed := ⟨"completed"⟩, completed_time := ⟨"completed_time"⟩ } }

/-! ## Helper lemmas -/

lemma slotText_none : slotText none = "default" := rfl

lemma slotText_some (k : Nat) : slotText (some k) = "$" ++ toString k := rfl

lemma append_congr_merge (a b ab : String) (h : a ++ b = ab) (x : String) :
    a ++ (b ++ x) = ab ++ x := by
  rw [← h, String.append_assoc]

lemma insertParamsToSqlRow_tail (ps : List Param) (ix j : Nat) :
    insertParamsToSqlRow ps (j + 1) ix =
      (concatAll (((markRow ix ps).1).map (fun m => ", " ++ slotText m)),
       (markRow ix ps).2) := by
  induction ps generalizing ix j with
  | nil => rfl
  | cons p ps ih =>
    by_cases hd : p.isDefault
    · simp [insertParamsToSqlRow, markRow, hd, ih, concatAll, slotText_none,
        String.append_assoc, -String.reduceAppend]
    · simp [insertParamsToSqlRow, markRow, hd, ih, concatAll, slotText_some,
        String.append_assoc, -String.reduceAppend]

lemma map_sep_slot (ms : List (Option Nat)) :
    (ms.map slotText).map (fun y => ", " ++ y) = ms.map (fun m => ", " ++ slotText m) := by
  induction ms with
  | nil => rfl
  | cons m ms ih => simp only [List.map_cons, ih]

lemma insertParamsToSqlRow_head (ps : List Param) (ix : Nat) :
    insertParamsToSqlRow ps 0 ix =
      (sepConcat ", " (((markRow ix ps).1).map slotText), (markRow ix ps).2) := by
  cases ps with
  | nil => rfl
  | cons p ps =>
    by_cases hd : p.isDefault
    · simp [insertParamsToSqlRow, markRow, hd, insertParamsToSqlRow_tail, sepConcat,
        slotText_none, map_sep_slot, Function.comp_def, String.append_assoc,
        String.empty_append, -String.reduceAppend]
    · simp [insertParamsToSqlRow, markRow, hd, insertParamsToSqlRow_tail, sepConcat,
        slotText_some, map_sep_slot, Function.comp_def, String.append_assoc,
        String.empty_append, -String.reduceAppend]

lemma insertParamsToSqlRows_tail (vss : InsertParams) (ix i : Nat) :
    insertParamsToSqlRows vss (i + 1) ix =
      (concatAll (((markRows ix vss).1).map
        (fun ms => ", " ++ ("(" ++ sepConcat ", " (ms.map slotText) ++ ")"))),
       (markRows ix vss).2) := by
  induction vss generalizing ix i with
  | nil => rfl
  | cons vs vss ih =>
    simp [insertParamsToSqlRows, markRows, insertParamsToSqlRow_head, ih, concatAll,
      String.append_assoc, -String.reduceAppend]

lemma insertParamsToSqlRows_head (vss : InsertParams) (ix : Nat) :
    insertParamsToSqlRows vss 0 ix =
      (sepConcat ", "
        (((markRows ix vss).1).map (fun ms => "(" ++ sepConcat ", " (ms.map slotText) ++ ")")),
       (markRows ix vss).2) := by
  cases vss with
  | nil => rfl
  | cons vs vss =>
    simp [insertParamsToSqlRows, markRows, insertParamsToSqlRow_head,
      insertParamsToSqlRows_tail, sepConcat, List.map_map, Function.comp_def,
      String.append_assoc, String.empty_append, -String.reduceAppend]

lemma insertParamsToSql_eq_spec (vss : InsertParams) :
    InsertParams.toSql vss = specInsertParamsSql vss := by
  simp [InsertParams.toSql, specInsertParamsSql, insertParamsToSqlRows_head]

lemma markRow_append (ix : Nat) (ps qs : List Param) :
    markRow ix (ps ++ qs) =
      ((markRow ix ps).1 ++ (markRow (markRow ix ps).2 qs).1,
       (markRow (markRow ix ps).2 qs).2) := by
  induction ps generalizing ix with
  | nil => rfl
  | cons p ps ih =>
    by_cases hd : p.isDefault <;> simp [markRow, hd, ih]

lemma markRows_flatten (ix : Nat) (vss : InsertParams) :
    (markRows ix vss).1.flatten = (markRow ix vss.flatten).1 ∧
      (markRows ix vss).2 = (markRow ix vss.flatten).2 := by
  induction vss generalizing ix with
  | nil => exact ⟨rfl, rfl⟩
  | cons vs vss ih =>
    simp [markRows, List.flatten, markRow_append, (ih _).1, (ih _).2]

lemma markRow_filterMap (ps : List Param) (ix : Nat) :
    ((markRow ix ps).1).filterMap id =
      List.range' ix ((ps.filter (fun p => !p.isDefault)).length) := by
  induction ps generalizing ix with
  | nil => rfl
  | cons p ps ih =>
    by_cases hd : p.isDefault <;>
      simp [markRow, hd, List.filter_cons, ih, List.range'_succ]

lemma markRow_zip (ps : List Param) (ix : Nat) :
    (ps.zip (markRow ix ps).1).filterMap
        (fun x => if x.2.isSome then some x.1 else none) =
      ps.filter (fun p => !p.isDefault) := by
  induction ps generalizing ix with
  | nil => rfl
  | cons p ps ih =>
    by_cases hd : p.isDefault <;>
      simp [markRow, hd, List.filter_cons, List.zip_cons_cons, ih]

lemma executeParams_eq_flatten_filter (vss : InsertParams) :
    executeParams vss = vss.flatten.filter (fun p => !p.isDefault) := by
  induction vss with
  | nil => rfl
  | cons vs vss ih => simp [executeParams, List.flatten, List.filter_append, ih]

lemma markRow_isNone_map (ix : Nat) (ps : List Param) :
    ((markRow ix ps).1).map Option.isNone = ps.map Param.isDefault := by
  induction ps generalizing ix with
  | nil => rfl
  | cons p ps ih =>
    cases hd : p.isDefault <;> simp [markRow, hd, ih]

lemma encode_isSome_of_not_default (p : Param) (h : p.isDefault = false) :
    (Param.encode p).isSome = true := by
  cases p with
  | withDefault w =>
    cases w with
    | Value v => rfl
    | Default => simp [Param.isDefault, WithDefault.isDefault] at h
  | plain v => rfl

lemma mem_executeParams_not_default {vss : InsertParams} {p : Param}
    (h : p ∈ executeParams vss) : p.isDefault = false := by
  rw [executeParams_eq_flatten_filter] at h
  simpa using (List.mem_filter.1 h).2

lemma encodeAll_some (l : List Param)
    (h : ∀ p ∈ l, (Param.encode p).isSome = true) :
    ∃ ys, encodeAll l = some ys := by
  induction l with
  | nil => exact ⟨[], rfl⟩
  | cons p l ih =>
    obtain ⟨v, hv⟩ := Option.isSome_iff_exists.1 (h p (List.mem_cons_self p l))
    obtain ⟨ys, hys⟩ := ih (fun q hq => h q (List.mem_cons_of_mem _ hq))
    exact ⟨v :: ys, by simp [encodeAll, hv, hys]⟩

lemma executeParams_encodeAll (vss : InsertParams) :
    ∃ vals, encodeAll (executeParams vss) = some vals :=
  encodeAll_some _
    (fun p hp => encode_isSome_of_not_default p (mem_executeParams_not_default hp))

lemma columns_applySteps (q : Query C) (steps : List (QueryStep C)) :
    (applySteps q steps).columns = q.columns := by
  induction steps generalizing q with
  | nil => rfl
  | cons s rest ih =>
    cases s <;> simp [applySteps, ih, Query.where_, Query.order_by, Query.columns]

/-! ## Claim theorems -/

/-- C1: the placeholder numbering in the rendered SQL and the flattened
bound-parameter list of `execute` use the identical traversal (rows in
insertion order, params in column order, the counter incrementing only on
non-default slots): the renderer refines the spec-side marked rendering,
the markers of the slots in traversal order are exactly `1, 2, …, n` where
`n` is the number of bound params, the params sitting at marked slots in
traversal order are exactly the bound-parameter sequence, and on the
two-row example the rendering is
`values ($1, default, $2), (default, $3, $4)` with bound values
`[1, 3, 5, 6]` in that order. -/
theorem insert_placeholder_numbering_aligned :
    (∀ vss : InsertParams, InsertParams.toSql vss = specInsertParamsSql vss) ∧
    (∀ vss : InsertParams,
      ((markRows 1 vss).1.flatten).filterMap id =
        List.range' 1 (executeParams vss).length) ∧
    (∀ vss : InsertParams,
      (vss.flatten.zip ((markRows 1 vss).1.flatten)).filterMap
          (fun x => if x.2.isSome then some x.1 else none) =
        executeParams vss) ∧
    Insert.toSql exampleInsert =
      "insert into todo values ($1, default, $2), (default, $3, $4)" ∧
    (executeParams exampleRows).map Param.encode =
      [some (.int 1), some (.int 3), some (.int 5), some (.int 6)] := by
  refine ⟨insertParamsToSql_eq_spec, ?_, ?_, rfl, rfl⟩
  · intro vss
    rw [(markRows_flatten 1 vss).1, markRow_filterMap, executeParams_eq_flatten_filter]
  · intro vss
    rw [(markRows_flatten 1 vss).1, markRow_zip, executeParams_eq_flatten_filter]

/-- C2: when the connection reports an execution error, `Query::query` and
`Insert::execute` fail by surfacing that very error, uninterpreted and
unwrapped (the source's `.unwrap()` aborts carrying the connection error
unmodified, modelled as propagation); `query` produces no result rows in
that case and `execute` returns no result rows by type. -/
theorem connection_error_propagation (client : Client Row) (q : Query C)
    (from_row : Row → R) (i : Insert C') (e : DbError)
    (hq : ∀ s ps, client.queryFn s ps = .error e)
    (hx : ∀ s ps, client.executeFn s ps = .error e) :
    Query.query q from_row client = .error e ∧
      Insert.execute i client = some (.error e) := by
  constructor
  · simp [Query.query, hq]
  · obtain ⟨vals, hv⟩ := executeParams_encodeAll i.values
    simp [Insert.execute, hv, hx, Except.map]

/-- Witness for C2: a concrete always-failing connection, a concrete query
and a concrete insert. -/
theorem connection_error_propagation_witness :
    Query.query (fromTable (⟨"t", ()⟩ : Table Unit)) (fun r : Unit => r)
        (failingClient ⟨"boom"⟩) = .error ⟨"boom"⟩ ∧
      Insert.execute (insert_into (⟨"t", ()⟩ : Table Unit)) (failingClient ⟨"boom"⟩) =
        some (.error ⟨"boom"⟩) :=
  connection_error_propagation _ _ _ _ _ (fun _ _ => rfl) (fun _ _ => rfl)

/-- C3: for every query built from `from(table)` by any finite chain of
`where_` / `order_by` calls, `columns()` returns the column record of the
innermost `Table` node — literally `table.columns`, so the same field
names in the same order. -/
theorem columns_preserved_through_wrapping :
    ∀ (C : Type) (t : Table C) (steps : List (QueryStep C)),
      (applySteps (fromTable t) steps).columns = t.columns := by
  intro C t steps
  exact columns_applySteps (fromTable t) steps

/-- C4: `from(T).where_(|c| c.f.eq(Constant{value: v})).to_sql()` renders
exactly `select * from (select * from <n>) t where <f.name> = <v-as-text>`
(the constant is string-interpolated, unescaped and unparameterized), and
the `todo`/`completed`/`false` fixture renders
`select * from (select * from todo) t where completed = false`. -/
theorem where_constant_rendering :
    (∀ (C α : Type) [ToString α] (cols : C) (n : String)
        (sel : C → Field α) (v : α),
      Query.toSql ((fromTable ⟨n, cols⟩).where_
          (fun c => (sel c).eq (Constant.mk v))) =
        "select * from (select * from " ++ n ++ ") t where " ++
          (sel cols).name ++ " = " ++ toString v) ∧
    Query.toSql ((fromTable TODO_TABLE).where_
        (fun c => c.completed.clone.eq (Constant.mk false))) =
      "select * from (select * from todo) t where completed = false" := by
  constructor
  · intro C α _ cols n sel v
    simp only [fromTable, Query.where_, Query.columns, Query.toSql, Table.toSql,
      Field.eq, instSomeFieldField, instSomeFieldConstant, SomeField.erase,
      Predicate.toSql, SomeFieldE.toSql, String.append_assoc]
    exact append_congr_merge _ _ _ rfl _
  · rfl

/-- C5: `from(T).order_by(|c| asc(&c.f)).to_sql()` renders exactly
`select * from (select * from <T.name>) t order by <f.name> asc`, `desc`
renders the key as `<f.name> desc`, and `asc`/`desc` capture a clone of
the operand (the clone duplicates the whole state, so the `Order` owns a
key equal to the operand). -/
theorem order_by_asc_desc_rendering :
    (∀ (C α : Type) (cols : C) (n : String) (sel : C → Field α),
      Query.toSql ((fromTable ⟨n, cols⟩).order_by (fun c => asc (sel c))) =
        "select * from (select * from " ++ n ++ ") t order by " ++
          (sel cols).name ++ " asc") ∧
    (∀ (C α : Type) (cols : C) (n : String) (sel : C → Field α),
      Query.toSql ((fromTable ⟨n, cols⟩).order_by (fun c => desc (sel c))) =
        "select * from (select * from " ++ n ++ ") t order by " ++
          (sel cols).name ++ " desc") ∧
    (∀ (α : Type) (f : Field α),
      Field.clone f = f ∧
        (asc f).by_ = SomeField.erase f ∧ (asc f).direction = Direction.ascending ∧
        (desc f).by_ = SomeField.erase f ∧ (desc f).direction = Direction.descending) := by
  refine ⟨?_, ?_, fun α f => ⟨rfl, rfl, rfl, rfl, rfl⟩⟩
  · intro C α cols n sel
    simp only [fromTable, Query.order_by, Query.columns, Query.toSql, Table.toSql,
      asc, Field.clone, instSomeFieldField, SomeField.erase, Order.toSql,
      SomeFieldE.toSql, Direction.toSql, String.append_assoc]
    rw [show (" " ++ "asc" : String) = " asc" from rfl]
    exact append_congr_merge _ _ _ rfl _
  · intro C α cols n sel
    simp only [fromTable, Query.order_by, Query.columns, Query.toSql, Table.toSql,
      desc, Field.clone, instSomeFieldField, SomeField.erase, Order.toSql,
      SomeFieldE.toSql, Direction.toSql, String.append_assoc]
    rw [show (" " ++ "desc" : String) = " desc" from rfl]
    exact append_congr_merge _ _ _ rfl _

/-- C6: every default-marked `Param` is omitted from the bound-parameter
list (and non-default params encode successfully), a slot is marked
default-rendering exactly when its param is default (and a default mark
renders the keyword `default`), and consequently the `WithDefault`
encoding panic is unreachable through `Insert::execute` (the call never
aborts with that panic, for any insert and any connection). -/
theorem default_param_filtering_safety :
    (∀ vss : InsertParams,
      (executeParams vss).all
          (fun p => !p.isDefault && (Param.encode p).isSome) = true) ∧
    (∀ (ix : Nat) (ps : List Param),
      ((markRow ix ps).1).map Option.isNone = ps.map Param.isDefault) ∧
    slotText none = "default" ∧
    (∀ (Row C : Type) (i : Insert C) (client : Client Row),
      (Insert.execute i client).isSome = true) := by
  refine ⟨?_, markRow_isNone_map, rfl, ?_⟩
  · intro vss
    rw [List.all_eq_true]
    intro p hp
    have h1 := mem_executeParams_not_default hp
    simp [h1, encode_isSome_of_not_default p h1]
  · intro Row C i client
    obtain ⟨vals, hv⟩ := executeParams_encodeAll i.values
    simp [Insert.execute, hv]

/-- C7: each `order_by` call adds exactly one nesting level rendered as its
own derived-table subquery: rendering `q.order_by(f).order_by(g)` wraps
the rendering of `q.order_by(f)` and the outermost call's key is the
outermost (final) `order by` clause. -/
theorem order_by_nesting_rendering :
    ∀ (C : Type) (q : Query C) (f g : C → Order),
      Query.toSql ((q.order_by f).order_by g) =
        "select * from (" ++ Query.toSql (q.order_by f) ++ ") t order by " ++
          Order.toSql (g ((q.order_by f).columns)) := by
  intro C q f g
  rfl

/-- C8: `values` returns a new `Insert` whose row sequence is the previous
rows unchanged and in order, followed by the one new row obtained from the
argument's param conversion; `insert_into(table)` begins with zero rows. -/
theorem values_appends_row :
    (∀ (C V : Type) (i : Insert C) (to_sql_params : V → List Param) (r : V),
      (i.values_ to_sql_params r).values = i.values ++ [to_sql_params r] ∧
        (i.values_ to_sql_params r).table = i.table) ∧
    (∀ (C : Type) (t : Table C), (insert_into t).values = ([] : InsertParams)) :=
  ⟨fun _ _ _ _ _ => ⟨rfl, rfl⟩, fun _ _ => rfl⟩

/-- C9: rendering is deterministic and side-effect free — `to_sql` and the
bound-parameter derivation are pure functions of the tree in this
embedding (the source renders through `&self` receivers touching no
mutable state), so two derivations from the same value coincide and the
tree is unchanged. -/
theorem rendering_deterministic :
    ∀ (C C' : Type) (q : Query C) (i : Insert C'),
      Query.toSql q = Query.toSql q ∧
        Insert.toSql i = Insert.toSql i ∧
        executeParams i.values = executeParams i.values :=
  fun _ _ _ _ => ⟨rfl, rfl, rfl⟩

/-- C10: an `Insert` with zero rows renders as
`insert into <table name> values ` — trailing space, no parenthesized
groups, no failure or rejection. -/
theorem empty_insert_rendering :
    (∀ (C : Type) (t : Table C),
      Insert.toSql (insert_into t) = "insert into " ++ t.name ++ " values ") ∧
    Insert.toSql (insert_into TODO_TABLE) = "insert into todo values " := by
  constructor
  · intro C t
    simp [Insert.toSql, insert_into, Table.toSql, InsertParams.toSql,
      insertParamsToSqlRows, String.append_empty]
  · rfl

end TypedQuery
